import Mathlib

/-!
Shallow embedding of `scripts/analyze-token-attribution.py`.

The script reads a JSON batch of phase records and prints a diagnostic
report.  We model a well-formed phase record by the structure `Phase`
(required fields present; the transcript fields are optional, matching
the script's use of `'transcript_events_examined' in phase` and
`phase.get('transcript_events_matched', 0)`).  Token counts are integers
and durations are rationals.  Each `print` call of the script is
modelled by one constructor of the `Line` type, carrying the data
interpolated into that line; the report is the list of emitted lines.
A run either ends normally or with a raised exception (`Err`), and the
lines printed before the exception are kept, as on a real terminal.
-/

structure Phase where
  workflow_id : String
  phase_name : String
  tokens_attributed : Int
  duration_seconds : ℚ
  is_archived : Bool
  transcript_events_examined : Option Int
  transcript_events_matched : Option Int
deriving DecidableEq

/-- Exceptions the script can raise: `ZeroDivisionError` from the
percentage computation, and `KeyError` from a missing dict field. -/
inductive Err where
  | zeroDivision : Err
  | keyError : String → Err
deriving DecidableEq

/-- One printed line of the report, one constructor per `print` call of
the script, carrying the interpolated data. -/
inductive Line where
  | sep : Line
  | title : Line
  | blank : Line
  | totalPhases : Nat → Line
  | zeroTok : Nat → ℚ → Line
  | nonzeroTok : Nat → ℚ → Line
  | zeroBreakdownHeader : Line
  | archivedCount : Nat → Line
  | liveCount : Nat → Line
  | suspiciousCount : Nat → Line
  | top10Header : Line
  | suspicious : String → String → ℚ → Line
  | zeroRateHeader : Line
  | stat : String → Nat → Nat → ℚ → Line
  | workflowHeader : Line
  | wfAllZero : Nat → Line
  | wfAllNonzero : Nat → Line
  | wfMixed : Nat → Line
  | liveHeader : Line
  | transcript : String → Int → Int → Int → Line
  | recTitle : Line
  | recBug1 : Line
  | recBug2 : Line
  | recBug3 : Line
  | recBug4 : Line
  | recBug5 : Line
  | recBug6 : Line
  | recMixed1 : Line
  | recMixed2 : Line
  | recLive1 : Line
deriving DecidableEq

/-- `zero_token_phases = [p for p in data if p['tokens_attributed'] == 0]`
(script line 30). -/
def zero_token_phases (data : List Phase) : List Phase :=
  data.filter fun p => decide (p.tokens_attributed = 0)

/-- `nonzero_token_phases = [p for p in data if p['tokens_attributed'] > 0]`
(script line 31). -/
def nonzero_token_phases (data : List Phase) : List Phase :=
  data.filter fun p => decide (0 < p.tokens_attributed)

/-- One step of appending a record into a `defaultdict(list)` keyed by
`k`: extend the existing group, else append a new key (Python dicts keep
insertion order). -/
def groupAdd {α : Type} (m : List (String × List α)) (k : String) (p : α) :
    List (String × List α) :=
  match m with
  | [] => [(k, [p])]
  | (k', ps) :: rest =>
      if k' = k then (k', ps ++ [p]) :: rest else (k', ps) :: groupAdd rest k p

/-- The grouping loop of script lines 38–40: a `defaultdict(list)`
keyed by `key p`, modelled as an association list in first-seen key
order. -/
def groupBy {α : Type} (key : α → String) (data : List α) :
    List (String × List α) :=
  data.foldl (fun m p => groupAdd m (key p) p) []

/-- `by_workflow` (script lines 34, 39). -/
def by_workflow (data : List Phase) : List (String × List Phase) :=
  groupBy (fun p => p.workflow_id) data

/-- `by_phase_name` (script lines 35, 40). -/
def by_phase_name (data : List Phase) : List (String × List Phase) :=
  groupBy (fun p => p.phase_name) data

/-- `zero_by_archived['archived']` (script lines 42–44): zero-token
phases with `is_archived`, in batch order. -/
def zero_archived (data : List Phase) : List Phase :=
  data.filter fun p => decide (p.tokens_attributed = 0) && p.is_archived

/-- `zero_by_archived['live']` (script lines 42, 45–46): zero-token
phases that are not archived, in batch order. -/
def zero_live (data : List Phase) : List Phase :=
  data.filter fun p => decide (p.tokens_attributed = 0) && !p.is_archived

/-- `suspicious_phases` (script lines 50–53): zero-token phases with
`duration_seconds > 300`. -/
def suspicious_phases (data : List Phase) : List Phase :=
  (zero_token_phases data).filter fun p => decide (300 < p.duration_seconds)

/-- Python's `sorted(l, key=key, reverse=True)`: a stable descending
sort by `key`.  Insertion sort with the relation `key b ≤ key a` is
exactly this: an element is placed before another iff its key is
greater, or the keys tie and it occurred earlier. -/
def pySortDesc {α : Type} (key : α → ℚ) (l : List α) : List α :=
  List.insertionSort (fun a b => key b ≤ key a) l

/-- `suspicious_sorted` (script line 75). -/
def suspicious_sorted (data : List Phase) : List Phase :=
  pySortDesc (fun p => p.duration_seconds) (suspicious_phases data)

/-- The zero-token count of a group (script lines 86, 101). -/
def zeroCount (phases : List Phase) : Nat :=
  (phases.filter fun p => decide (p.tokens_attributed = 0)).length

/-- One entry of `phase_stats` (script lines 84–88):
`(phase_name, total, zero_count, zero_rate)`. -/
def statEntry (k : String) (phases : List Phase) : String × Nat × Nat × ℚ :=
  (k, phases.length, zeroCount phases,
    if 0 < phases.length then (zeroCount phases : ℚ) / phases.length * 100 else 0)

/-- `phase_stats` before sorting (script lines 83–88), built in
first-seen phase-name order. -/
def phase_stats (data : List Phase) : List (String × Nat × Nat × ℚ) :=
  (by_phase_name data).map fun g => statEntry g.1 g.2

/-- The zero-rate component of a stats entry. -/
def statRate (e : String × Nat × Nat × ℚ) : ℚ := e.2.2.2

/-- `phase_stats.sort(key=lambda x: x[3], reverse=True)` (script
line 90): stable descending sort by zero rate. -/
def phase_stats_sorted (data : List Phase) : List (String × Nat × Nat × ℚ) :=
  pySortDesc statRate (phase_stats data)

/-- `workflows_all_zero` (script lines 96, 100–103). -/
def workflows_all_zero (data : List Phase) : List String :=
  (by_workflow data).filterMap fun g =>
    if zeroCount g.2 = g.2.length then some g.1 else none

/-- `workflows_all_nonzero` (script lines 98, 104–105). -/
def workflows_all_nonzero (data : List Phase) : List String :=
  (by_workflow data).filterMap fun g =>
    if zeroCount g.2 = g.2.length then none
    else if zeroCount g.2 = 0 then some g.1 else none

/-- `workflows_mixed` (script lines 97, 106–107), with
`(wid, zero_count, total)`. -/
def workflows_mixed (data : List Phase) : List (String × Nat × Nat) :=
  (by_workflow data).filterMap fun g =>
    if zeroCount g.2 = g.2.length then none
    else if zeroCount g.2 = 0 then none
    else some (g.1, zeroCount g.2, g.2.length)

/-- `live_phases = [p for p in data if not p['is_archived']]` (script
line 116). -/
def live_phases (data : List Phase) : List Phase :=
  data.filter fun p => !p.is_archived

/-- The report line for one suspicious phase (script lines 77–78);
duration converted to minutes. -/
def mkSus (p : Phase) : Line :=
  Line.suspicious p.workflow_id p.phase_name (p.duration_seconds / 60)

/-- The report line for one phase-name stats entry (script line 92). -/
def mkStat (e : String × Nat × Nat × ℚ) : Line :=
  Line.stat e.1 e.2.2.1 e.2.1 e.2.2.2

/-- The transcript-matching line for one live phase (script lines
120–124): produced only when `'transcript_events_examined' in phase`;
`transcript_events_matched` falls back to `0` via `.get`. -/
def mkTranscript (p : Phase) : Option Line :=
  p.transcript_events_examined.map fun ex =>
    Line.transcript p.phase_name ex
      (p.transcript_events_matched.getD 0) p.tokens_attributed

/-- The header lines printed before the percentage computation (script
lines 56–61). -/
def preLines (total : Nat) : List Line :=
  [Line.sep, Line.title, Line.sep, Line.blank, Line.totalPhases total]

/-- The suspicious-phase section (script lines 71–79). -/
def suspSection (data : List Phase) : List Line :=
  [Line.suspiciousCount (suspicious_phases data).length] ++
    (if (suspicious_phases data).length = 0 then []
     else [Line.blank, Line.top10Header] ++
       ((suspicious_sorted data).take 10).map mkSus) ++
    [Line.blank]

/-- The phase-name zero-rate section (script lines 82–93). -/
def statSection (data : List Phase) : List Line :=
  [Line.zeroRateHeader] ++ (phase_stats_sorted data).map mkStat ++ [Line.blank]

/-- The workflow-level section (script lines 109–113). -/
def wfSection (data : List Phase) : List Line :=
  [Line.workflowHeader, Line.wfAllZero (workflows_all_zero data).length,
    Line.wfAllNonzero (workflows_all_nonzero data).length,
    Line.wfMixed (workflows_mixed data).length, Line.blank]

/-- The live-phase transcript-matching section (script lines 116–125):
printed only when `live_phases` is non-empty, with one line per live
phase that carries `transcript_events_examined`. -/
def liveSection (data : List Phase) : List Line :=
  if (live_phases data).length = 0 then []
  else Line.liveHeader :: (live_phases data).filterMap mkTranscript ++ [Line.blank]

/-- The recommendations section (script lines 128–147). -/
def recSection (data : List Phase) : List Line :=
  [Line.sep, Line.recTitle, Line.sep] ++
    (if 10 < (suspicious_phases data).length then
      [Line.recBug1, Line.recBug2, Line.recBug3, Line.recBug4, Line.recBug5,
        Line.recBug6, Line.blank] else []) ++
    (if 0 < (workflows_mixed data).length then
      [Line.recMixed1, Line.recMixed2, Line.blank] else []) ++
    (if 0 < (zero_live data).length then [Line.recLive1] else [])

/-- `main()` of the script on a batch of well-formed records: the list
of printed lines together with the exception, if any, that ended the
run.  When the batch is empty, the f-string of script line 62 divides
`len(zero_token_phases)` by `total_phases = 0`, raising
`ZeroDivisionError` after the banner and the total-count line have
already been printed. -/
def mainRun (data : List Phase) : List Line × Option Err :=
  let total := data.length
  if total = 0 then (preLines total, some Err.zeroDivision)
  else
    (preLines total ++
      [Line.zeroTok (zero_token_phases data).length
          (((zero_token_phases data).length : ℚ) / total * 100),
        Line.nonzeroTok (nonzero_token_phases data).length
          (((nonzero_token_phases data).length : ℚ) / total * 100),
        Line.blank,
        Line.zeroBreakdownHeader,
        Line.archivedCount (zero_archived data).length,
        Line.liveCount (zero_live data).length,
        Line.blank] ++
      suspSection data ++ statSection data ++ wfSection data ++
      liveSection data ++ recSection data, none)

/-!
Raw model of the script: a record is a Python dict, so any field may be
absent.  `r['k']` is a checked access raising `KeyError`, `r.get('k', d)`
is `Option.getD`, `'k' in r` is `Option.isSome`.  This model is used for
the malformed-input behaviour; on batches whose records carry all five
required fields it computes the same report as `mainRun`.
-/

structure RawRec where
  workflow_id : Option String
  phase_name : Option String
  tokens_attributed : Option Int
  duration_seconds : Option ℚ
  is_archived : Option Bool
  transcript_events_examined : Option Int
  transcript_events_matched : Option Int
deriving DecidableEq

/-- `r[name]`: checked dict access, raising `KeyError name` when the
field is absent. -/
def getField {α : Type} (o : Option α) (name : String) : Except Err α :=
  match o with
  | some v => Except.ok v
  | none => Except.error (Err.keyError name)

/-- Script line 30 on raw records: the comprehension accesses
`tokens_attributed` of every record in order, raising at the first
record missing it. -/
def rawZeroFilter : List RawRec → Except Err (List RawRec)
  | [] => Except.ok []
  | r :: rs => do
      let t ← getField r.tokens_attributed "tokens_attributed"
      let rest ← rawZeroFilter rs
      pure (if t = 0 then r :: rest else rest)

/-- Script line 31 on raw records. -/
def rawNonzeroFilter : List RawRec → Except Err (List RawRec)
  | [] => Except.ok []
  | r :: rs => do
      let t ← getField r.tokens_attributed "tokens_attributed"
      let rest ← rawNonzeroFilter rs
      pure (if 0 < t then r :: rest else rest)

/-- Accumulator of the grouping loop (script lines 34–36). -/
structure GAcc where
  byW : List (String × List RawRec)
  byP : List (String × List RawRec)
  zArch : List RawRec
  zLive : List RawRec
deriving DecidableEq

/-- One iteration of the grouping loop (script lines 38–46), accessing
`workflow_id`, `phase_name`, `tokens_attributed` and — only for
zero-token records — `is_archived`, in the script's order. -/
def rawGroupStep (acc : GAcc) (r : RawRec) : Except Err GAcc := do
  let wid ← getField r.workflow_id "workflow_id"
  let pname ← getField r.phase_name "phase_name"
  let t ← getField r.tokens_attributed "tokens_attributed"
  if t = 0 then do
    let arch ← getField r.is_archived "is_archived"
    pure ⟨groupAdd acc.byW wid r, groupAdd acc.byP pname r,
      if arch then acc.zArch ++ [r] else acc.zArch,
      if arch then acc.zLive else acc.zLive ++ [r]⟩
  else
    pure ⟨groupAdd acc.byW wid r, groupAdd acc.byP pname r, acc.zArch, acc.zLive⟩

/-- The grouping loop over the whole batch. -/
def rawGroupFold : List RawRec → GAcc → Except Err GAcc
  | [], acc => Except.ok acc
  | r :: rs, acc => do rawGroupFold rs (← rawGroupStep acc r)

/-- Script lines 50–53 on raw records: accesses `duration_seconds` of
every zero-token record. -/
def rawSuspFilter : List RawRec → Except Err (List RawRec)
  | [] => Except.ok []
  | r :: rs => do
      let d ← getField r.duration_seconds "duration_seconds"
      let rest ← rawSuspFilter rs
      pure (if 300 < d then r :: rest else rest)

/-- Everything the script computes before its first `print` (lines
24–53). -/
def rawPrelude (data : List RawRec) :
    Except Err (List RawRec × List RawRec × GAcc × List RawRec) := do
  let zs ← rawZeroFilter data
  let ns ← rawNonzeroFilter data
  let g ← rawGroupFold data ⟨[], [], [], []⟩
  let susp ← rawSuspFilter zs
  pure (zs, ns, g, susp)

/-- Script line 116 on raw records: the comprehension accesses
`is_archived` of every record, raising at the first record missing it. -/
def rawLiveFilter : List RawRec → Except Err (List RawRec)
  | [] => Except.ok []
  | r :: rs => do
      let arch ← getField r.is_archived "is_archived"
      let rest ← rawLiveFilter rs
      pure (if arch then rest else r :: rest)

/-- Zero-token count of a raw group (script lines 86, 101).  The
records of every group already passed the `tokens_attributed` access of
line 30, so the field is present and `getD` is exact. -/
def rawZeroCount (ps : List RawRec) : Nat :=
  (ps.filter fun r => decide (r.tokens_attributed.getD 0 = 0)).length

/-- One `phase_stats` entry on raw groups (script lines 84–88). -/
def rawStatEntry (k : String) (ps : List RawRec) : String × Nat × Nat × ℚ :=
  (k, ps.length, rawZeroCount ps,
    if 0 < ps.length then (rawZeroCount ps : ℚ) / ps.length * 100 else 0)

/-- The suspicious-phase report line on a raw record (script lines
77–78); the fields shown were all accessed earlier in the run. -/
def rawMkSus (r : RawRec) : Line :=
  Line.suspicious (r.workflow_id.getD "") (r.phase_name.getD "")
    (r.duration_seconds.getD 0 / 60)

/-- The transcript-matching line for one raw live phase (script lines
120–124). -/
def rawMkTranscript (r : RawRec) : Option Line :=
  r.transcript_events_examined.map fun ex =>
    Line.transcript (r.phase_name.getD "") ex
      (r.transcript_events_matched.getD 0) (r.tokens_attributed.getD 0)

/-- `main()` of the script on raw (dict) records: printed lines plus
the exception, if any.  Failures before the first `print` leave the
output empty; the `is_archived` accesses of line 116 can fail after
most of the report has been printed. -/
def rawMain (data : List RawRec) : List Line × Option Err :=
  match rawPrelude data with
  | Except.error e => ([], some e)
  | Except.ok (zs, ns, g, susp) =>
    let total := data.length
    if total = 0 then (preLines total, some Err.zeroDivision)
    else
      let suspSorted := pySortDesc (fun r => r.duration_seconds.getD 0) susp
      let stats := pySortDesc statRate (g.byP.map fun p => rawStatEntry p.1 p.2)
      let wZero := g.byW.filterMap fun p =>
        if rawZeroCount p.2 = p.2.length then some p.1 else none
      let wNonzero := g.byW.filterMap fun p =>
        if rawZeroCount p.2 = p.2.length then none
        else if rawZeroCount p.2 = 0 then some p.1 else none
      let wMixed := g.byW.filterMap fun p =>
        if rawZeroCount p.2 = p.2.length then none
        else if rawZeroCount p.2 = 0 then none
        else some (p.1, rawZeroCount p.2, p.2.length)
      let part1 := preLines total ++
        [Line.zeroTok zs.length ((zs.length : ℚ) / total * 100),
          Line.nonzeroTok ns.length ((ns.length : ℚ) / total * 100),
          Line.blank, Line.zeroBreakdownHeader,
          Line.archivedCount g.zArch.length, Line.liveCount g.zLive.length,
          Line.blank, Line.suspiciousCount susp.length] ++
        (if susp.length = 0 then []
         else [Line.blank, Line.top10Header] ++ (suspSorted.take 10).map rawMkSus) ++
        [Line.blank, Line.zeroRateHeader] ++ stats.map mkStat ++
        [Line.blank, Line.workflowHeader, Line.wfAllZero wZero.length,
          Line.wfAllNonzero wNonzero.length, Line.wfMixed wMixed.length,
          Line.blank]
      match rawLiveFilter data with
      | Except.error e => (part1, some e)
      | Except.ok live =>
        (part1 ++
          (if live.length = 0 then []
           else Line.liveHeader :: live.filterMap rawMkTranscript ++ [Line.blank]) ++
          [Line.sep, Line.recTitle, Line.sep] ++
          (if 10 < susp.length then
            [Line.recBug1, Line.recBug2, Line.recBug3, Line.recBug4,
              Line.recBug5, Line.recBug6, Line.blank] else []) ++
          (if 0 < wMixed.length then
            [Line.recMixed1, Line.recMixed2, Line.blank] else []) ++
          (if 0 < g.zLive.length then [Line.recLive1] else []), none)

/-!
Sorting toolkit: `pySortDesc key` permutes its input, sorts it by
descending key, and is stable — tagging elements with their original
positions, the output is strictly ordered by (key descending, position
ascending).  A sorted permutation is unique when keys are pairwise
distinct.
-/

theorem pySortDesc_perm {α : Type} (key : α → ℚ) (l : List α) :
    (pySortDesc key l).Perm l :=
  List.perm_insertionSort _ l

theorem pySortDesc_sorted {α : Type} (key : α → ℚ) (l : List α) :
    (pySortDesc key l).Pairwise fun a b => key b ≤ key a := by
  haveI : IsTotal α fun a b => key b ≤ key a := ⟨fun a b => le_total (key b) (key a)⟩
  haveI : IsTrans α fun a b => key b ≤ key a :=
    ⟨fun _ _ _ hab hbc => le_trans hbc hab⟩
  exact List.sorted_insertionSort _ l

/-- Tag list elements with their positions, starting at `n`. -/
def withIdx {α : Type} : Nat → List α → List (Nat × α)
  | _, [] => []
  | n, a :: l => (n, a) :: withIdx (n + 1) l

theorem withIdx_map_snd {α : Type} :
    ∀ (n : Nat) (l : List α), (withIdx n l).map Prod.snd = l
  | _, [] => rfl
  | n, a :: l => by simp [withIdx, withIdx_map_snd (n + 1) l]

theorem mem_withIdx_le {α : Type} :
    ∀ {n : Nat} {l : List α} {x : Nat × α}, x ∈ withIdx n l → n ≤ x.1 := by
  intro n l
  induction l generalizing n with
  | nil => intro x hx; simp [withIdx] at hx
  | cons a l ih =>
      intro x hx
      rcases (List.mem_cons).mp hx with h | h
      · subst h; exact le_refl _
      · exact le_trans (Nat.le_succ n) (ih h)

theorem withIdx_pairwise {α : Type} :
    ∀ (n : Nat) (l : List α), (withIdx n l).Pairwise fun a b => a.1 < b.1
  | _, [] => List.Pairwise.nil
  | n, a :: l => by
      refine List.Pairwise.cons ?_ (withIdx_pairwise (n + 1) l)
      intro x hx
      exact lt_of_lt_of_le (Nat.lt_succ_self n) (mem_withIdx_le hx)

theorem orderedInsert_map_snd {α : Type} (key : α → ℚ) :
    ∀ (L : List (Nat × α)) (x : Nat × α),
      (L.orderedInsert (fun a b => key b.2 ≤ key a.2) x).map Prod.snd
        = (L.map Prod.snd).orderedInsert (fun a b => key b ≤ key a) x.2
  | [], _ => rfl
  | y :: L, x => by
      by_cases h : key y.2 ≤ key x.2
      · simp [List.orderedInsert, h]
      · simp [List.orderedInsert, h, orderedInsert_map_snd key L x]

theorem pySortDesc_map_snd {α : Type} (key : α → ℚ) (l : List (Nat × α)) :
    (pySortDesc (fun x => key x.2) l).map Prod.snd = pySortDesc key (l.map Prod.snd) := by
  induction l with
  | nil => rfl
  | cons x l ih =>
      simp only [pySortDesc, List.insertionSort, List.map] at ih ⊢
      rw [orderedInsert_map_snd key _ x, ih]

/-- Strict lexicographic order on position-tagged elements: larger key
first, ties by original position. -/
def lexDesc {α : Type} (key : α → ℚ) (a b : Nat × α) : Prop :=
  key b.2 < key a.2 ∨ (key a.2 = key b.2 ∧ a.1 < b.1)

theorem orderedInsert_lex {α : Type} (key : α → ℚ) (x : Nat × α) :
    ∀ L : List (Nat × α), L.Pairwise (lexDesc key) → (∀ y ∈ L, x.1 < y.1) →
      (L.orderedInsert (fun a b => key b.2 ≤ key a.2) x).Pairwise (lexDesc key)
  | [], _, _ => List.pairwise_singleton _ _
  | y :: L, hp, hidx => by
      by_cases h : key y.2 ≤ key x.2
      · rw [List.orderedInsert, if_pos h]
        refine List.Pairwise.cons ?_ hp
        intro z hz
        have hz2 : key z.2 ≤ key x.2 := by
          rcases (List.mem_cons).mp hz with rfl | hzL
          · exact h
          · have := (List.pairwise_cons.mp hp).1 z hzL
            rcases this with hlt | ⟨heq, _⟩
            · exact le_trans (le_of_lt hlt) h
            · exact le_trans (le_of_eq heq.symm) h
        rcases lt_or_eq_of_le hz2 with hlt | heq
        · exact Or.inl hlt
        · exact Or.inr ⟨heq.symm, hidx z hz⟩
      · rw [List.orderedInsert, if_neg h]
        have hxy : key x.2 < key y.2 := not_le.mp h
        refine List.Pairwise.cons ?_
          (orderedInsert_lex key x L (List.pairwise_cons.mp hp).2
            (fun z hz => hidx z (List.mem_cons_of_mem _ hz)))
        intro z hz
        rcases (List.mem_orderedInsert _).mp hz with rfl | hzL
        · exact Or.inl hxy
        · exact (List.pairwise_cons.mp hp).1 z hzL

theorem pySortDesc_lex {α : Type} (key : α → ℚ) :
    ∀ l : List (Nat × α), l.Pairwise (fun a b => a.1 < b.1) →
      (pySortDesc (fun x => key x.2) l).Pairwise (lexDesc key)
  | [], _ => List.Pairwise.nil
  | x :: l, hp => by
      have ih := pySortDesc_lex key l (List.pairwise_cons.mp hp).2
      simp only [pySortDesc, List.insertionSort] at ih ⊢
      refine orderedInsert_lex key x _ ih ?_
      intro y hy
      have hyl : y ∈ l := (List.perm_insertionSort _ l).subset hy
      exact (List.pairwise_cons.mp hp).1 y hyl

theorem sorted_perm_distinct_eq {α : Type} (key : α → ℚ) :
    ∀ (l1 l2 : List α), l1.Perm l2 →
      l1.Pairwise (fun a b => key b ≤ key a) →
      l2.Pairwise (fun a b => key b ≤ key a) →
      l1.Pairwise (fun a b => key a ≠ key b) → l1 = l2 := by
  intro l1
  induction l1 with
  | nil => intro l2 h _ _ _; exact h.nil_eq
  | cons a t1 ih =>
      intro l2 h s1 s2 d1
      cases l2 with
      | nil => exact absurd h.symm.nil_eq (by simp)
      | cons b t2 =>
          by_cases hab : a = b
          · subst hab
            have ht : t1.Perm t2 := h.cons_inv
            have := ih t2 ht (List.pairwise_cons.mp s1).2
              (List.pairwise_cons.mp s2).2 (List.pairwise_cons.mp d1).2
            rw [this]
          · have ha2 : a ∈ t2 := by
              have : a ∈ b :: t2 := h.subset (List.mem_cons_self a t1)
              exact (List.mem_cons.mp this).resolve_left hab
            have hb1 : b ∈ t1 := by
              have : b ∈ a :: t1 := h.symm.subset (List.mem_cons_self b t2)
              exact (List.mem_cons.mp this).resolve_left (fun hh => hab hh.symm)
            have h1 : key b ≤ key a := (List.pairwise_cons.mp s1).1 b hb1
            have h2 : key a ≤ key b := (List.pairwise_cons.mp s2).1 a ha2
            exact absurd (le_antisymm h2 h1) ((List.pairwise_cons.mp d1).1 b hb1)

/-!
Grouping toolkit: `groupBy key data` has pairwise-distinct keys in
first-seen order, a key is present iff some record carries it, and each
group is exactly the subsequence of the batch with that key.
-/

theorem groupBy_append {α : Type} (key : α → String) (l : List α) (p : α) :
    groupBy key (l ++ [p]) = groupAdd (groupBy key l) (key p) p := by
  simp [groupBy, List.foldl_append]

theorem groupAdd_keys {α : Type} (k : String) (p : α) :
    ∀ m : List (String × List α), (groupAdd m k p).map Prod.fst =
      if k ∈ m.map Prod.fst then m.map Prod.fst else m.map Prod.fst ++ [k]
  | [] => by simp [groupAdd]
  | (k', ps) :: rest => by
      by_cases h : k' = k
      · subst h
        simp [groupAdd]
      · simp only [groupAdd, if_neg h, List.map_cons, groupAdd_keys k p rest]
        by_cases h2 : k ∈ rest.map Prod.fst
        · rw [if_pos h2, if_pos (List.mem_cons_of_mem _ h2)]
        · rw [if_neg h2, if_neg ?_, List.cons_append]
          intro hmem
          rcases List.mem_cons.mp hmem with he | hm
          · exact h he.symm
          · exact h2 hm

theorem groupBy_keys_nodup {α : Type} (key : α → String) (data : List α) :
    ((groupBy key data).map Prod.fst).Nodup := by
  induction data using List.reverseRecOn with
  | nil => simp [groupBy]
  | append_singleton l p ih =>
      rw [groupBy_append, groupAdd_keys]
      by_cases h : key p ∈ (groupBy key l).map Prod.fst
      · rw [if_pos h]; exact ih
      · rw [if_neg h]
        refine List.Nodup.append ih (List.nodup_singleton _) ?_
        intro a ha hb
        rw [List.mem_singleton] at hb
        subst hb
        exact h ha

theorem groupBy_keys_mem {α : Type} (key : α → String) (data : List α) (k : String) :
    k ∈ (groupBy key data).map Prod.fst ↔ ∃ p ∈ data, key p = k := by
  induction data using List.reverseRecOn generalizing k with
  | nil => simp [groupBy]
  | append_singleton l p ih =>
      rw [groupBy_append, groupAdd_keys]
      by_cases h : key p ∈ (groupBy key l).map Prod.fst
      · rw [if_pos h, ih]
        constructor
        · rintro ⟨q, hq, he⟩
          exact ⟨q, List.mem_append_left _ hq, he⟩
        · rintro ⟨q, hq, he⟩
          rcases List.mem_append.mp hq with hql | hqp
          · exact ⟨q, hql, he⟩
          · rw [List.mem_singleton] at hqp
            obtain ⟨q', hq', he'⟩ := (ih (key p)).mp h
            exact ⟨q', hq', he'.trans (hqp ▸ he)⟩
      · rw [if_neg h, List.mem_append, List.mem_singleton, ih]
        constructor
        · rintro (⟨q, hq, he⟩ | he)
          · exact ⟨q, List.mem_append_left _ hq, he⟩
          · exact ⟨p, List.mem_append_right _ (List.mem_singleton_self p), he.symm⟩
        · rintro ⟨q, hq, he⟩
          rcases List.mem_append.mp hq with hql | hqp
          · exact Or.inl ⟨q, hql, he⟩
          · rw [List.mem_singleton] at hqp
            subst hqp
            exact Or.inr he.symm

theorem groupAdd_groups {α : Type} (key : α → String) (data : List α) (p : α) :
    ∀ m : List (String × List α),
      (m.map Prod.fst).Nodup →
      (∀ g ∈ m, g.2 = data.filter fun q => decide (key q = g.1)) →
      (key p ∉ m.map Prod.fst →
        (data.filter fun q => decide (key q = key p)) = []) →
      ∀ g ∈ groupAdd m (key p) p,
        g.2 = (data ++ [p]).filter fun q => decide (key q = g.1)
  | [], _, _, hmiss, g, hg => by
      simp only [groupAdd, List.mem_singleton] at hg
      subst hg
      simp [List.filter_append, hmiss (by simp)]
  | (k', ps) :: rest, hnd, hgr, hmiss, g, hg => by
      have hnd' : (k' :: rest.map Prod.fst).Nodup := by simpa using hnd
      by_cases h : k' = key p
      · rw [groupAdd, if_pos h] at hg
        rcases List.mem_cons.mp hg with rfl | hgrest
        · have hps : ps = data.filter fun q => decide (key q = k') :=
            hgr (k', ps) (List.mem_cons_self _ _)
          rw [List.filter_append, ← hps]
          simp [← h]
        · have hg1 : ¬ key p = g.1 := by
            intro he
            apply (List.nodup_cons.mp hnd').1
            rw [h, he]
            exact List.mem_map_of_mem Prod.fst hgrest
          have hgd : g.2 = data.filter fun q => decide (key q = g.1) :=
            hgr g (List.mem_cons_of_mem _ hgrest)
          rw [List.filter_append, hgd]
          simp [hg1]
      · rw [groupAdd, if_neg h] at hg
        rcases List.mem_cons.mp hg with rfl | hgrest
        · have hps : ps = data.filter fun q => decide (key q = k') :=
            hgr (k', ps) (List.mem_cons_self _ _)
          have hne : ¬ key p = k' := fun he => h he.symm
          rw [List.filter_append, ← hps]
          simp [hne]
        · refine groupAdd_groups key data p rest (List.nodup_cons.mp hnd').2
            (fun g' hg' => hgr g' (List.mem_cons_of_mem _ hg')) ?_ g hgrest
          intro hnm
          refine hmiss ?_
          intro hmem
          have hmem' : key p ∈ k' :: rest.map Prod.fst := by simpa using hmem
          rcases List.mem_cons.mp hmem' with he | hm
          · exact h he.symm
          · exact hnm hm

theorem groupBy_groups {α : Type} (key : α → String) (data : List α) :
    ∀ g ∈ groupBy key data, g.2 = data.filter fun q => decide (key q = g.1) := by
  induction data using List.reverseRecOn with
  | nil => intro g hg; simp [groupBy] at hg
  | append_singleton l p ih =>
      intro g hg
      rw [groupBy_append] at hg
      refine groupAdd_groups key l p (groupBy key l) (groupBy_keys_nodup key l) ih ?_ g hg
      intro hnm
      rw [List.filter_eq_nil_iff]
      intro q hq hkq
      exact hnm ((groupBy_keys_mem key l (key p)).mpr
        ⟨q, hq, by simpa using hkq⟩)

/-! Line classifiers, used to extract one section's lines from a report. -/

def isSusLine : Line → Bool
  | Line.suspicious _ _ _ => true
  | _ => false

def isStatLine : Line → Bool
  | Line.stat _ _ _ _ => true
  | _ => false

def isTranscriptLine : Line → Bool
  | Line.transcript _ _ _ _ => true
  | _ => false

/-- The first line of each recommendation block (script lines 133, 142,
147). -/
def isRecHead : Line → Bool
  | Line.recBug1 => true
  | Line.recMixed1 => true
  | Line.recLive1 => true
  | _ => false

theorem zero_add_nonzero_length :
    ∀ data : List Phase, (∀ p ∈ data, 0 ≤ p.tokens_attributed) →
      (zero_token_phases data).length + (nonzero_token_phases data).length
        = data.length
  | [], _ => rfl
  | a :: l, h => by
      have ha := h a (List.mem_cons_self a l)
      have ih := zero_add_nonzero_length l fun p hp => h p (List.mem_cons_of_mem a hp)
      by_cases hz : a.tokens_attributed = 0
      · have hnpos : ¬ (0 < a.tokens_attributed) := by omega
        simp only [zero_token_phases, nonzero_token_phases, List.filter_cons] at ih ⊢
        simp [hz, hnpos] at ih ⊢
        omega
      · have hpos : 0 < a.tokens_attributed := by omega
        simp only [zero_token_phases, nonzero_token_phases, List.filter_cons] at ih ⊢
        simp [hz, hpos] at ih ⊢
        omega

/-- C2: on a batch of records with non-negative token counts, the
classification by attribution is a partition: no phase is in both the
zero and the nonzero set, and the two lengths sum to the batch
length. -/
theorem c2_classification_partitions (data : List Phase)
    (h : ∀ p ∈ data, 0 ≤ p.tokens_attributed) :
    (∀ p : Phase,
      ¬(p ∈ zero_token_phases data ∧ p ∈ nonzero_token_phases data)) ∧
    (zero_token_phases data).length + (nonzero_token_phases data).length
      = data.length := by
  refine ⟨?_, zero_add_nonzero_length data h⟩
  rintro p ⟨hz, hn⟩
  have h1 : p.tokens_attributed = 0 := by
    simpa [zero_token_phases] using (List.mem_filter.mp hz).2
  have h2 : 0 < p.tokens_attributed := by
    simpa [nonzero_token_phases] using (List.mem_filter.mp hn).2
  omega

/-- C2 witness: the partition property at a concrete three-record
batch. -/
theorem c2_witness :
    (∀ p ∈ ([⟨"w1", "plan", 0, 400, true, none, none⟩,
        ⟨"w1", "code", 5, 10, true, none, none⟩,
        ⟨"w1", "test", 0, 2, true, none, none⟩] : List Phase),
      0 ≤ p.tokens_attributed) ∧
    ((∀ p : Phase,
      ¬(p ∈ zero_token_phases [⟨"w1", "plan", 0, 400, true, none, none⟩,
            ⟨"w1", "code", 5, 10, true, none, none⟩,
            ⟨"w1", "test", 0, 2, true, none, none⟩] ∧
        p ∈ nonzero_token_phases [⟨"w1", "plan", 0, 400, true, none, none⟩,
            ⟨"w1", "code", 5, 10, true, none, none⟩,
            ⟨"w1", "test", 0, 2, true, none, none⟩])) ∧
    (zero_token_phases [⟨"w1", "plan", 0, 400, true, none, none⟩,
        ⟨"w1", "code", 5, 10, true, none, none⟩,
        ⟨"w1", "test", 0, 2, true, none, none⟩]).length +
      (nonzero_token_phases [⟨"w1", "plan", 0, 400, true, none, none⟩,
        ⟨"w1", "code", 5, 10, true, none, none⟩,
        ⟨"w1", "test", 0, 2, true, none, none⟩]).length = 3) :=
  ⟨by decide, c2_classification_partitions _ (by decide)⟩

/-- C9: a record with negative `tokens_attributed` lands in neither the
zero nor the nonzero set, so the two sets no longer cover the batch and
the two reported percentages sum to 0, not 100. -/
theorem c9_negative_tokens_escape_partition :
    (zero_token_phases [⟨"w1", "plan", -1, 10, true, none, none⟩]).length +
      (nonzero_token_phases [⟨"w1", "plan", -1, 10, true, none, none⟩]).length
      < ([⟨"w1", "plan", -1, 10, true, none, none⟩] : List Phase).length ∧
    Line.zeroTok 0 0 ∈ (mainRun [⟨"w1", "plan", -1, 10, true, none, none⟩]).1 ∧
    Line.nonzeroTok 0 0 ∈ (mainRun [⟨"w1", "plan", -1, 10, true, none, none⟩]).1 ∧
    (0 : ℚ) + 0 ≠ 100 := by
  refine ⟨by decide, ?_, ?_, by norm_num⟩ <;>
    simp [mainRun, preLines, suspSection, statSection, wfSection, liveSection,
      recSection, zero_token_phases, nonzero_token_phases, zero_archived,
      zero_live, suspicious_phases, suspicious_sorted, phase_stats,
      phase_stats_sorted, by_phase_name, by_workflow, groupBy, groupAdd,
      live_phases, pySortDesc, statEntry, zeroCount, workflows_all_zero,
      workflows_all_nonzero, workflows_mixed, mkTranscript, statRate, mkStat,
      mkSus]

/-- C3: on the empty batch the script prints the banner and the
total-count line, then the percentage f-string divides by the zero
total and raises `ZeroDivisionError` — it does not report an
`EmptyBatch` error, and report lines are printed before the failure. -/
theorem c3_empty_batch_division_crash :
    mainRun ([] : List Phase) =
      ([Line.sep, Line.title, Line.sep, Line.blank, Line.totalPhases 0],
        some Err.zeroDivision) := rfl

/-- C10: a live phase that carries `transcript_events_examined` but no
`transcript_events_matched` does not make the run fail; its transcript
line is printed with the matched count defaulted to 0 by `.get`. -/
theorem c10_missing_matched_defaults_to_zero (data : List Phase) (p : Phase)
    (e : Int) (hp : p ∈ data) (hl : p.is_archived = false)
    (he : p.transcript_events_examined = some e)
    (hm : p.transcript_events_matched = none) :
    (mainRun data).2 = none ∧
    Line.transcript p.phase_name e 0 p.tokens_attributed ∈ (mainRun data).1 := by
  have hne : ¬ data.length = 0 := by
    cases data with
    | nil => simp at hp
    | cons a l => simp
  constructor
  · simp [mainRun, hne]
  · have hlive : p ∈ live_phases data :=
      List.mem_filter.mpr ⟨hp, by simp [hl]⟩
    have hlen : ¬ (live_phases data).length = 0 := by
      intro h0
      rw [List.length_eq_zero] at h0
      rw [h0] at hlive
      simp at hlive
    have hline : Line.transcript p.phase_name e 0 p.tokens_attributed
        ∈ liveSection data := by
      simp only [liveSection, if_neg hlen]
      refine List.mem_cons_of_mem _ (List.mem_append_left _ ?_)
      refine List.mem_filterMap.mpr ⟨p, hlive, ?_⟩
      simp [mkTranscript, he, hm]
    simp only [mainRun, if_neg hne]
    simp [List.mem_append, hline]

/-- C10 witness: a concrete batch with one live phase carrying
`transcript_events_examined = 4` and no `transcript_events_matched`. -/
theorem c10_witness :
    Phase.mk "w1" "plan" 7 10 false (some 4) none
        ∈ ([⟨"w1", "plan", 7, 10, false, some 4, none⟩] : List Phase) ∧
    (mainRun [⟨"w1", "plan", 7, 10, false, some 4, none⟩]).2 = none ∧
    Line.transcript "plan" 4 0 7
      ∈ (mainRun [⟨"w1", "plan", 7, 10, false, some 4, none⟩]).1 :=
  ⟨by decide,
    c10_missing_matched_defaults_to_zero _
      (Phase.mk "w1" "plan" 7 10 false (some 4) none) 4 (by decide) rfl rfl rfl⟩

/-! Helpers to isolate one class of lines in a rendered report. -/

theorem filter_map_of_all_false {α : Type} (P : Line → Bool) (f : α → Line)
    (hf : ∀ a, P (f a) = false) (l : List α) : (l.map f).filter P = [] := by
  induction l with
  | nil => rfl
  | cons a l ih => simp [List.filter_cons, hf a, ih]

theorem filter_map_of_all_true {α : Type} (P : Line → Bool) (f : α → Line)
    (hf : ∀ a, P (f a) = true) (l : List α) : (l.map f).filter P = l.map f := by
  induction l with
  | nil => rfl
  | cons a l ih => simp [List.filter_cons, hf a, ih]

theorem filterMap_mkTranscript_filter_false (P : Line → Bool)
    (hP : ∀ s e m t, P (Line.transcript s e m t) = false) (l : List Phase) :
    (l.filterMap mkTranscript).filter P = [] := by
  induction l with
  | nil => rfl
  | cons p l ih =>
      cases he : p.transcript_events_examined with
      | none => simp [List.filterMap_cons, mkTranscript, he, ih]
      | some e =>
          simp [List.filterMap_cons, mkTranscript, he, List.filter_cons,
            hP, ih]

theorem filterMap_mkTranscript_filter_true (l : List Phase) :
    (l.filterMap mkTranscript).filter isTranscriptLine
      = l.filterMap mkTranscript := by
  induction l with
  | nil => rfl
  | cons p l ih =>
      cases he : p.transcript_events_examined with
      | none => simp [List.filterMap_cons, mkTranscript, he, ih]
      | some e =>
          simp [List.filterMap_cons, mkTranscript, he, List.filter_cons,
            isTranscriptLine, ih]

/-- C5 counterexample: a batch with one live phase and no transcript
fields still prints the `Live phase transcript matching:` header, so
the section is not emitted "only if" a live phase carries the
transcript-matching fields. -/
theorem c5_counterexample :
    Line.liveHeader ∈ (mainRun [⟨"w1", "plan", 1, 10, false, none, none⟩]).1 ∧
    ¬ ∃ p ∈ ([⟨"w1", "plan", 1, 10, false, none, none⟩] : List Phase),
        p.is_archived = false ∧ p.transcript_events_examined.isSome = true := by
  constructor
  · simp [mainRun, preLines, suspSection, statSection, wfSection, liveSection,
      recSection, zero_token_phases, nonzero_token_phases, zero_archived,
      zero_live, suspicious_phases, suspicious_sorted, phase_stats,
      phase_stats_sorted, by_phase_name, by_workflow, groupBy, groupAdd,
      live_phases, pySortDesc, statEntry, zeroCount, workflows_all_zero,
      workflows_all_nonzero, workflows_mixed, mkTranscript, statRate, mkStat,
      mkSus]
  · decide

/-- C5 amended: the live-phase transcript section (its header) is
emitted iff at least one live phase exists — whether or not any of them
carries the transcript-matching fields — and the section body has one
line per live phase that carries `transcript_events_examined`, showing
phase name, events examined, events matched (0 when absent) and tokens
attributed. -/
theorem c5_amended (data : List Phase) :
    (Line.liveHeader ∈ (mainRun data).1 ↔ live_phases data ≠ []) ∧
    (mainRun data).1.filter isTranscriptLine
      = (live_phases data).filterMap mkTranscript := by
  by_cases hne : data.length = 0
  · have hd : data = [] := List.length_eq_zero.mp hne
    subst hd
    constructor
    · simp [mainRun, preLines, live_phases]
    · simp [mainRun, preLines, live_phases, isTranscriptLine]
  · have hlh : Line.liveHeader ∈ liveSection data ↔ live_phases data ≠ [] := by
      unfold liveSection
      by_cases h : (live_phases data).length = 0
      · simp [h, List.length_eq_zero.mp h]
      · have hnil : live_phases data ≠ [] := by
          intro h0
          rw [h0] at h
          simp at h
        simp [h, hnil]
    have hlt : (liveSection data).filter isTranscriptLine
        = (live_phases data).filterMap mkTranscript := by
      unfold liveSection
      by_cases h : (live_phases data).length = 0
      · simp [h, List.length_eq_zero.mp h]
      · simp [h, List.filter_cons, List.filter_append, isTranscriptLine,
          filterMap_mkTranscript_filter_true]
    have h2 : Line.liveHeader ∉ preLines data.length := by simp [preLines]
    have h4 : Line.liveHeader ∉ suspSection data := by
      unfold suspSection
      by_cases h : (suspicious_phases data).length = 0
      · simp [h]
      · simp [h, List.mem_append]
        intro hmem
        obtain ⟨p, _, hp⟩ := List.mem_map.mp (List.mem_of_mem_take hmem)
        exact absurd hp (by simp [mkSus])
    have h5 : Line.liveHeader ∉ statSection data := by
      simp [statSection, mkStat, List.mem_append]
    have h6 : Line.liveHeader ∉ wfSection data := by simp [wfSection]
    have h7 : Line.liveHeader ∉ recSection data := by
      unfold recSection
      split_ifs <;> simp [List.mem_append]
    have f1 : (preLines data.length).filter isTranscriptLine = [] := by
      simp [preLines, isTranscriptLine]
    have f3 : (suspSection data).filter isTranscriptLine = [] := by
      unfold suspSection
      by_cases h : (suspicious_phases data).length = 0
      · simp [h, isTranscriptLine]
      · simp [h, List.filter_append, List.filter_cons, isTranscriptLine]
        intro a ha
        obtain ⟨p, _, rfl⟩ := List.mem_map.mp (List.mem_of_mem_take ha)
        rfl
    have f4 : (statSection data).filter isTranscriptLine = [] := by
      simp [statSection, List.filter_append, List.filter_cons, isTranscriptLine,
        filter_map_of_all_false isTranscriptLine mkStat (fun a => rfl)]
    have f5 : (wfSection data).filter isTranscriptLine = [] := by
      simp [wfSection, isTranscriptLine]
    have f6 : (recSection data).filter isTranscriptLine = [] := by
      unfold recSection
      split_ifs <;>
        simp [isTranscriptLine, List.filter_append, List.filter_cons]
    constructor
    · rw [← hlh]
      simp only [mainRun, if_neg hne]
      simp [List.mem_append, h2, h4, h5, h6, h7]
    · simp only [mainRun, if_neg hne]
      simp only [List.filter_append, f1, f3, f4, f5, f6, hlt]
      simp [isTranscriptLine]

/-- C8: the three recommendation blocks are emitted exactly under their
conditions — systemic-bug warning iff more than 10 suspicious phases,
mixed-workflow note iff some mixed workflow exists, live-zero warning
iff some live zero-token phase exists — and the blocks that fire appear
in that fixed order. -/
theorem c8_recommendation_rules (data : List Phase) :
    (mainRun data).1.filter isRecHead =
      (if 10 < (suspicious_phases data).length then [Line.recBug1] else []) ++
      (if 0 < (workflows_mixed data).length then [Line.recMixed1] else []) ++
      (if 0 < (zero_live data).length then [Line.recLive1] else []) ∧
    (Line.recBug1 ∈ (mainRun data).1 ↔ 10 < (suspicious_phases data).length) ∧
    (Line.recMixed1 ∈ (mainRun data).1 ↔ 0 < (workflows_mixed data).length) ∧
    (Line.recLive1 ∈ (mainRun data).1 ↔ 0 < (zero_live data).length) := by
  by_cases hne : data.length = 0
  · have hd : data = [] := List.length_eq_zero.mp hne
    subst hd
    simp [mainRun, preLines, suspicious_phases, zero_token_phases,
      workflows_mixed, by_workflow, groupBy, zero_live, isRecHead]
  · have g1 : (preLines data.length).filter isRecHead = [] := by
      simp [preLines, isRecHead]
    have g3 : (suspSection data).filter isRecHead = [] := by
      unfold suspSection
      by_cases h : (suspicious_phases data).length = 0
      · simp [h, isRecHead]
      · simp [h, List.filter_append, List.filter_cons, isRecHead]
        intro a ha
        obtain ⟨p, _, rfl⟩ := List.mem_map.mp (List.mem_of_mem_take ha)
        rfl
    have g4 : (statSection data).filter isRecHead = [] := by
      simp [statSection, List.filter_append, List.filter_cons, isRecHead,
        filter_map_of_all_false isRecHead mkStat (fun a => rfl)]
    have g5 : (wfSection data).filter isRecHead = [] := by
      simp [wfSection, isRecHead]
    have g6 : (liveSection data).filter isRecHead = [] := by
      unfold liveSection
      by_cases h : (live_phases data).length = 0
      · simp [h]
      · simp [h, List.filter_append, List.filter_cons, isRecHead,
          filterMap_mkTranscript_filter_false isRecHead
            (fun s e m t => rfl)]
    have g7 : (recSection data).filter isRecHead =
        (if 10 < (suspicious_phases data).length then [Line.recBug1] else []) ++
        (if 0 < (workflows_mixed data).length then [Line.recMixed1] else []) ++
        (if 0 < (zero_live data).length then [Line.recLive1] else []) := by
      unfold recSection
      split_ifs <;> simp [isRecHead, List.filter_append, List.filter_cons]
    have hfe : (mainRun data).1.filter isRecHead =
        (if 10 < (suspicious_phases data).length then [Line.recBug1] else []) ++
        (if 0 < (workflows_mixed data).length then [Line.recMixed1] else []) ++
        (if 0 < (zero_live data).length then [Line.recLive1] else []) := by
      simp only [mainRun, if_neg hne]
      simp only [List.filter_append, g1, g3, g4, g5, g6, g7]
      simp [isRecHead]
    refine ⟨hfe, ?_, ?_, ?_⟩
    · have hm : Line.recBug1 ∈ (mainRun data).1 ↔
          Line.recBug1 ∈ (mainRun data).1.filter isRecHead := by
        simp [List.mem_filter, isRecHead]
      rw [hm, hfe]
      split_ifs <;> simp_all
    · have hm : Line.recMixed1 ∈ (mainRun data).1 ↔
          Line.recMixed1 ∈ (mainRun data).1.filter isRecHead := by
        simp [List.mem_filter, isRecHead]
      rw [hm, hfe]
      split_ifs <;> simp_all
    · have hm : Line.recLive1 ∈ (mainRun data).1 ↔
          Line.recLive1 ∈ (mainRun data).1.filter isRecHead := by
        simp [List.mem_filter, isRecHead]
      rw [hm, hfe]
      split_ifs <;> simp_all

theorem map_snd_filter_snd {α : Type} (p : α → Bool) (l : List (Nat × α)) :
    (l.filter fun x => p x.2).map Prod.snd = (l.map Prod.snd).filter p := by
  induction l with
  | nil => rfl
  | cons a l ih =>
      by_cases h : p a.2 <;> simp [List.filter_cons, h, ih]

/-- The property C1 asserts of the suspicious-phase pipeline. -/
def c1Claim (data : List Phase) : Prop :=
  (suspicious_sorted data).Perm (data.filter fun p =>
      decide (p.tokens_attributed = 0) && decide (300 < p.duration_seconds)) ∧
  (∀ p : Phase, p ∈ suspicious_sorted data ↔
      p ∈ data ∧ p.tokens_attributed = 0 ∧ 300 < p.duration_seconds) ∧
  (suspicious_sorted data).Pairwise
    (fun a b => b.duration_seconds ≤ a.duration_seconds) ∧
  suspicious_sorted data =
    (pySortDesc (fun x => x.2.duration_seconds)
      ((withIdx 0 data).filter fun x =>
        decide (x.2.tokens_attributed = 0) &&
          decide (300 < x.2.duration_seconds))).map Prod.snd ∧
  (pySortDesc (fun x => x.2.duration_seconds)
      ((withIdx 0 data).filter fun x =>
        decide (x.2.tokens_attributed = 0) &&
          decide (300 < x.2.duration_seconds))).Pairwise
    (lexDesc fun p => p.duration_seconds) ∧
  (mainRun data).1.filter isSusLine
    = ((suspicious_sorted data).take 10).map mkSus ∧
  ((mainRun data).1.filter isSusLine).length
    = min 10 (suspicious_sorted data).length

/-- C1: for batches with non-negative tokens and durations, the
suspicious list is exactly the phases with zero tokens and duration
over 300 s, sorted by descending duration, stably — position-tagged, the
sort output is strictly ordered by (duration descending, batch position
ascending) — and the rendered report carries `min(10, len(suspicious))`
suspicious lines, the head of that order. -/
theorem c1_suspicious_anomaly (data : List Phase)
    (htok : ∀ p ∈ data, 0 ≤ p.tokens_attributed)
    (hdur : ∀ p ∈ data, 0 ≤ p.duration_seconds) : c1Claim data := by
  have hfil : suspicious_phases data = data.filter fun p =>
      decide (p.tokens_attributed = 0) && decide (300 < p.duration_seconds) := by
    rw [suspicious_phases, zero_token_phases, List.filter_filter]
    exact List.filter_congr fun a _ => by rw [Bool.and_comm]
  have hperm : (suspicious_sorted data).Perm (suspicious_phases data) :=
    pySortDesc_perm _ _
  have hstable : suspicious_sorted data =
      (pySortDesc (fun x => x.2.duration_seconds)
        ((withIdx 0 data).filter fun x =>
          decide (x.2.tokens_attributed = 0) &&
            decide (300 < x.2.duration_seconds))).map Prod.snd := by
    have h1 := pySortDesc_map_snd (fun p : Phase => p.duration_seconds)
      ((withIdx 0 data).filter fun x =>
        decide (x.2.tokens_attributed = 0) &&
          decide (300 < x.2.duration_seconds))
    have h2 := map_snd_filter_snd
      (fun q : Phase => decide (q.tokens_attributed = 0) &&
        decide (300 < q.duration_seconds)) (withIdx 0 data)
    rw [suspicious_sorted, hfil]
    exact (congrArg (pySortDesc fun p : Phase => p.duration_seconds)
      ((h2.trans (by rw [withIdx_map_snd])).symm)).trans h1.symm
  have hsection : (mainRun data).1.filter isSusLine
      = ((suspicious_sorted data).take 10).map mkSus := by
    by_cases hne : data.length = 0
    · have hd : data = [] := List.length_eq_zero.mp hne
      subst hd
      have hs0 : suspicious_sorted [] = [] := by
        simp [suspicious_sorted, suspicious_phases, zero_token_phases,
          pySortDesc]
      simp [mainRun, preLines, hs0, isSusLine]
    · have g1 : (preLines data.length).filter isSusLine = [] := by
        simp [preLines, isSusLine]
      have g3 : (suspSection data).filter isSusLine
          = ((suspicious_sorted data).take 10).map mkSus := by
        unfold suspSection
        by_cases h : (suspicious_phases data).length = 0
        · have hs : suspicious_sorted data = [] := by
            rw [← List.length_eq_zero, hperm.length_eq, h]
          simp [h, hs, isSusLine]
        · simp [h, List.filter_append, List.filter_cons, isSusLine]
          intro a ha
          obtain ⟨p, _, rfl⟩ := List.mem_map.mp (List.mem_of_mem_take ha)
          rfl
      have g4 : (statSection data).filter isSusLine = [] := by
        simp [statSection, List.filter_append, List.filter_cons, isSusLine,
          filter_map_of_all_false isSusLine mkStat (fun a => rfl)]
      have g5 : (wfSection data).filter isSusLine = [] := by
        simp [wfSection, isSusLine]
      have g6 : (liveSection data).filter isSusLine = [] := by
        unfold liveSection
        by_cases h : (live_phases data).length = 0
        · simp [h]
        · simp [h, List.filter_append, List.filter_cons, isSusLine,
            filterMap_mkTranscript_filter_false isSusLine
              (fun s e m t => rfl)]
      have g7 : (recSection data).filter isSusLine = [] := by
        unfold recSection
        split_ifs <;> simp [isSusLine, List.filter_append, List.filter_cons]
      simp only [mainRun, if_neg hne]
      simp only [List.filter_append, g1, g3, g4, g5, g6, g7]
      simp [isSusLine, List.map_take]
  refine ⟨hfil ▸ hperm, ?_, pySortDesc_sorted _ _, hstable, ?_, hsection, ?_⟩
  · intro p
    rw [hperm.mem_iff, hfil]
    simp
  · exact pySortDesc_lex (fun p : Phase => p.duration_seconds) _
      ((withIdx_pairwise 0 data).filter _)
  · rw [hsection]
    simp [List.length_take]

/-- C1 witness: the suspicious-list property at a concrete batch with
non-negative tokens and durations. -/
theorem c1_witness :
    (∀ p ∈ ([⟨"w1", "plan", 0, 400, true, none, none⟩,
        ⟨"w1", "code", 5, 10, true, none, none⟩,
        ⟨"w1", "test", 0, 2, true, none, none⟩] : List Phase),
      0 ≤ p.tokens_attributed) ∧
    (∀ p ∈ ([⟨"w1", "plan", 0, 400, true, none, none⟩,
        ⟨"w1", "code", 5, 10, true, none, none⟩,
        ⟨"w1", "test", 0, 2, true, none, none⟩] : List Phase),
      0 ≤ p.duration_seconds) ∧
    c1Claim [⟨"w1", "plan", 0, 400, true, none, none⟩,
      ⟨"w1", "code", 5, 10, true, none, none⟩,
      ⟨"w1", "test", 0, 2, true, none, none⟩] :=
  ⟨by decide, by decide, c1_suspicious_anomaly _ (by decide) (by decide)⟩

/-- The property C7 asserts of the phase-name zero-rate table. -/
def c7Claim (data : List Phase) : Prop :=
  ((phase_stats_sorted data).map (fun e => e.1)).Perm
    ((by_phase_name data).map Prod.fst) ∧
  ((by_phase_name data).map Prod.fst).Nodup ∧
  (∀ k : String, k ∈ (by_phase_name data).map Prod.fst ↔
    ∃ p ∈ data, p.phase_name = k) ∧
  (∀ e ∈ phase_stats_sorted data,
    e.2.1 = (data.filter fun p => decide (p.phase_name = e.1)).length ∧
    e.2.2.1 = (data.filter fun p =>
      decide (p.phase_name = e.1) && decide (p.tokens_attributed = 0)).length) ∧
  (phase_stats_sorted data).Pairwise (fun a b => statRate b ≤ statRate a) ∧
  phase_stats_sorted data =
    (pySortDesc (fun x => statRate x.2) (withIdx 0 (phase_stats data))).map
      Prod.snd ∧
  (pySortDesc (fun x => statRate x.2) (withIdx 0 (phase_stats data))).Pairwise
    (lexDesc statRate) ∧
  (mainRun data).1.filter isStatLine = (phase_stats_sorted data).map mkStat

/-- C7: for a non-empty batch, the zero-rate table has one entry per
distinct phase name (names in first-seen order, no duplicates), each
entry carries that name's occurrence count and zero-attribution count,
and the table is sorted by descending zero rate, stably — tagged with
first-seen rank, the sort output is strictly ordered by (rate
descending, rank ascending). -/
theorem c7_zero_rate_table (data : List Phase) (hne : data ≠ []) :
    c7Claim data := by
  have hperm : (phase_stats_sorted data).Perm (phase_stats data) :=
    pySortDesc_perm _ _
  have hnames : (phase_stats data).map (fun e => e.1)
      = (by_phase_name data).map Prod.fst := by
    simp [phase_stats, statEntry, List.map_map, Function.comp]
  have hgroups := groupBy_groups (fun p : Phase => p.phase_name) data
  refine ⟨hnames ▸ hperm.map (fun e => e.1), groupBy_keys_nodup _ data,
    fun k => groupBy_keys_mem _ data k, ?_, pySortDesc_sorted _ _, ?_, ?_, ?_⟩
  · intro e he
    have he2 : e ∈ phase_stats data := hperm.subset he
    obtain ⟨g, hg, rfl⟩ := List.mem_map.mp he2
    have hgf := hgroups g hg
    constructor
    · simp only [statEntry]
      rw [hgf]
    · simp only [statEntry, zeroCount]
      rw [hgf, List.filter_filter]
      exact congrArg List.length
        (List.filter_congr fun a _ => by rw [Bool.and_comm])
  · have h1 := pySortDesc_map_snd statRate (withIdx 0 (phase_stats data))
    rw [withIdx_map_snd] at h1
    exact h1.symm
  · exact pySortDesc_lex statRate _ (withIdx_pairwise 0 _)
  · have hlen : ¬ data.length = 0 := by
      intro h0
      exact hne (List.length_eq_zero.mp h0)
    have g1 : (preLines data.length).filter isStatLine = [] := by
      simp [preLines, isStatLine]
    have g3 : (suspSection data).filter isStatLine = [] := by
      unfold suspSection
      by_cases h : (suspicious_phases data).length = 0
      · simp [h, isStatLine]
      · simp [h, List.filter_append, List.filter_cons, isStatLine]
        intro a ha
        obtain ⟨p, _, rfl⟩ := List.mem_map.mp (List.mem_of_mem_take ha)
        rfl
    have g4 : (statSection data).filter isStatLine
        = (phase_stats_sorted data).map mkStat := by
      simp [statSection, List.filter_append, List.filter_cons, isStatLine,
        filter_map_of_all_true isStatLine mkStat (fun a => rfl)]
    have g5 : (wfSection data).filter isStatLine = [] := by
      simp [wfSection, isStatLine]
    have g6 : (liveSection data).filter isStatLine = [] := by
      unfold liveSection
      by_cases h : (live_phases data).length = 0
      · simp [h]
      · simp [h, List.filter_append, List.filter_cons, isStatLine,
          filterMap_mkTranscript_filter_false isStatLine (fun s e m t => rfl)]
    have g7 : (recSection data).filter isStatLine = [] := by
      unfold recSection
      split_ifs <;> simp [isStatLine, List.filter_append, List.filter_cons]
    simp only [mainRun, if_neg hlen]
    simp only [List.filter_append, g1, g3, g4, g5, g6, g7]
    simp [isStatLine]

/-- C7 witness: the zero-rate-table property at a concrete non-empty
batch. -/
theorem c7_witness :
    ([⟨"w1", "plan", 0, 400, true, none, none⟩,
      ⟨"w1", "code", 5, 10, true, none, none⟩,
      ⟨"w2", "plan", 3, 2, true, none, none⟩] : List Phase) ≠ [] ∧
    c7Claim [⟨"w1", "plan", 0, 400, true, none, none⟩,
      ⟨"w1", "code", 5, 10, true, none, none⟩,
      ⟨"w2", "plan", 3, 2, true, none, none⟩] :=
  ⟨List.cons_ne_nil _ _, c7_zero_rate_table _ (List.cons_ne_nil _ _)⟩

/-!
Error propagation in the raw model: a record missing
`tokens_attributed` fails the comprehension of line 30, and a record
missing `workflow_id` or `phase_name` fails the grouping loop — all
before the first `print`.
-/

theorem rawZeroFilter_error :
    ∀ data : List RawRec, (∃ r ∈ data, r.tokens_attributed = none) →
      rawZeroFilter data = Except.error (Err.keyError "tokens_attributed")
  | [], h => by simp at h
  | r :: rs, h => by
      cases hv : r.tokens_attributed with
      | none => simp [rawZeroFilter, getField, hv, Bind.bind, Except.bind]
      | some t =>
          have htail : ∃ q ∈ rs, q.tokens_attributed = none := by
            obtain ⟨q, hq, he⟩ := h
            rcases List.mem_cons.mp hq with rfl | hq2
            · rw [hv] at he
              exact absurd he (by simp)
            · exact ⟨q, hq2, he⟩
          simp [rawZeroFilter, getField, hv, Bind.bind, Except.bind,
            rawZeroFilter_error rs htail]

theorem rawZeroFilter_ok :
    ∀ data : List RawRec, (∀ r ∈ data, r.tokens_attributed ≠ none) →
      ∃ l, rawZeroFilter data = Except.ok l
  | [], _ => ⟨[], rfl⟩
  | r :: rs, h => by
      cases hv : r.tokens_attributed with
      | none => exact absurd hv (h r (List.mem_cons_self r rs))
      | some t =>
          obtain ⟨l, hl⟩ :=
            rawZeroFilter_ok rs fun q hq => h q (List.mem_cons_of_mem r hq)
          refine ⟨if t = 0 then r :: l else l, ?_⟩
          simp [rawZeroFilter, getField, hv, hl, Bind.bind, Except.bind,
            Pure.pure, Except.pure]

theorem rawNonzeroFilter_ok :
    ∀ data : List RawRec, (∀ r ∈ data, r.tokens_attributed ≠ none) →
      ∃ l, rawNonzeroFilter data = Except.ok l
  | [], _ => ⟨[], rfl⟩
  | r :: rs, h => by
      cases hv : r.tokens_attributed with
      | none => exact absurd hv (h r (List.mem_cons_self r rs))
      | some t =>
          obtain ⟨l, hl⟩ :=
            rawNonzeroFilter_ok rs fun q hq => h q (List.mem_cons_of_mem r hq)
          refine ⟨if 0 < t then r :: l else l, ?_⟩
          simp [rawNonzeroFilter, getField, hv, hl, Bind.bind, Except.bind,
            Pure.pure, Except.pure]

theorem rawGroupStep_wid_none (acc : GAcc) (r : RawRec)
    (h : r.workflow_id = none) :
    rawGroupStep acc r = Except.error (Err.keyError "workflow_id") := by
  simp [rawGroupStep, getField, h, Bind.bind, Except.bind]

theorem rawGroupStep_pname_none (acc : GAcc) (r : RawRec) (w : String)
    (hw : r.workflow_id = some w) (h : r.phase_name = none) :
    rawGroupStep acc r = Except.error (Err.keyError "phase_name") := by
  simp [rawGroupStep, getField, hw, h, Bind.bind, Except.bind]

theorem rawGroupStep_tok_none (acc : GAcc) (r : RawRec) (w pn : String)
    (hw : r.workflow_id = some w) (hp : r.phase_name = some pn)
    (h : r.tokens_attributed = none) :
    rawGroupStep acc r = Except.error (Err.keyError "tokens_attributed") := by
  simp [rawGroupStep, getField, hw, hp, h, Bind.bind, Except.bind]

theorem rawGroupStep_error_key (acc : GAcc) (r : RawRec) (e : Err)
    (h : rawGroupStep acc r = Except.error e) : ∃ s, e = Err.keyError s := by
  cases hw : r.workflow_id with
  | none =>
      rw [rawGroupStep_wid_none acc r hw] at h
      exact ⟨_, (Except.error.inj h).symm⟩
  | some w =>
      cases hp : r.phase_name with
      | none =>
          rw [rawGroupStep_pname_none acc r w hw hp] at h
          exact ⟨_, (Except.error.inj h).symm⟩
      | some pn =>
          cases ht : r.tokens_attributed with
          | none =>
              rw [rawGroupStep_tok_none acc r w pn hw hp ht] at h
              exact ⟨_, (Except.error.inj h).symm⟩
          | some t =>
              by_cases hz : t = 0
              · cases ha : r.is_archived with
                | none =>
                    simp [rawGroupStep, getField, hw, hp, ht, hz, ha,
                      Bind.bind, Except.bind] at h
                    exact ⟨_, h.symm⟩
                | some b =>
                    simp [rawGroupStep, getField, hw, hp, ht, hz, ha,
                      Bind.bind, Except.bind, Pure.pure, Except.pure] at h
              · simp [rawGroupStep, getField, hw, hp, ht, hz,
                  Bind.bind, Except.bind, Pure.pure, Except.pure] at h

theorem rawGroupStep_ok_fields (acc : GAcc) (r : RawRec) (acc' : GAcc)
    (h : rawGroupStep acc r = Except.ok acc') :
    r.workflow_id ≠ none ∧ r.phase_name ≠ none := by
  constructor
  · intro hw
    rw [rawGroupStep_wid_none acc r hw] at h
    exact Except.noConfusion h
  · intro hp
    cases hw : r.workflow_id with
    | none =>
        rw [rawGroupStep_wid_none acc r hw] at h
        exact Except.noConfusion h
    | some w =>
        rw [rawGroupStep_pname_none acc r w hw hp] at h
        exact Except.noConfusion h

theorem rawGroupFold_error :
    ∀ data : List RawRec,
      (∃ r ∈ data, r.workflow_id = none ∨ r.phase_name = none) →
      ∀ acc : GAcc, ∃ s, rawGroupFold data acc = Except.error (Err.keyError s)
  | [], h, _ => by simp at h
  | r :: rs, h, acc => by
      cases hstep : rawGroupStep acc r with
      | error e =>
          obtain ⟨s, rfl⟩ := rawGroupStep_error_key acc r e hstep
          exact ⟨s, by simp [rawGroupFold, hstep, Bind.bind, Except.bind]⟩
      | ok acc' =>
          have hf := rawGroupStep_ok_fields acc r acc' hstep
          have htail : ∃ q ∈ rs, q.workflow_id = none ∨ q.phase_name = none := by
            obtain ⟨q, hq, hor⟩ := h
            rcases List.mem_cons.mp hq with rfl | hq2
            · rcases hor with h1 | h1
              · exact absurd h1 hf.1
              · exact absurd h1 hf.2
            · exact ⟨q, hq2, hor⟩
          obtain ⟨s, hs⟩ := rawGroupFold_error rs htail acc'
          exact ⟨s, by simp [rawGroupFold, hstep, Bind.bind, Except.bind, hs]⟩

theorem rawPrelude_error (data : List RawRec)
    (h : ∃ r ∈ data, r.workflow_id = none ∨ r.phase_name = none ∨
        r.tokens_attributed = none) :
    ∃ s, rawPrelude data = Except.error (Err.keyError s) := by
  by_cases htok : ∃ r ∈ data, r.tokens_attributed = none
  · exact ⟨"tokens_attributed", by
      simp [rawPrelude, rawZeroFilter_error data htok, Bind.bind, Except.bind]⟩
  · push_neg at htok
    obtain ⟨lz, hlz⟩ := rawZeroFilter_ok data htok
    obtain ⟨ln, hln⟩ := rawNonzeroFilter_ok data htok
    have hwp : ∃ r ∈ data, r.workflow_id = none ∨ r.phase_name = none := by
      obtain ⟨r, hr, hor⟩ := h
      rcases hor with h1 | h1 | h1
      · exact ⟨r, hr, Or.inl h1⟩
      · exact ⟨r, hr, Or.inr h1⟩
      · exact absurd h1 (htok r hr)
    obtain ⟨s, hs⟩ := rawGroupFold_error data hwp ⟨[], [], [], []⟩
    exact ⟨s, by simp [rawPrelude, hlz, hln, hs, Bind.bind, Except.bind]⟩

/-- C4 counterexample: a record with nonzero tokens whose
`duration_seconds` is missing.  The script never accesses
`duration_seconds` of nonzero-token records, so the run completes
without any failure — the claim that any missing required field fails
the whole run is false. -/
theorem c4_counterexample :
    (RawRec.mk (some "w1") (some "plan") (some 5) none (some false) none
        none).duration_seconds = none ∧
    (rawMain [⟨some "w1", some "plan", some 5, none, some false, none,
        none⟩]).2 = none := by
  exact ⟨rfl, rfl⟩

/-- C4 amended: a batch with a record missing `workflow_id`,
`phase_name` or `tokens_attributed` — the fields accessed for every
record before the first `print` — fails the whole run with a `KeyError`
and nothing is printed before the failure. -/
theorem c4_missing_core_field_fails_before_output (data : List RawRec)
    (h : ∃ r ∈ data, r.workflow_id = none ∨ r.phase_name = none ∨
        r.tokens_attributed = none) :
    (rawMain data).1 = [] ∧
    ∃ s, (rawMain data).2 = some (Err.keyError s) := by
  obtain ⟨s, hs⟩ := rawPrelude_error data h
  exact ⟨by simp [rawMain, hs], ⟨s, by simp [rawMain, hs]⟩⟩

/-- C4 witness: a concrete batch whose only record is missing
`workflow_id`. -/
theorem c4_witness :
    (∃ r ∈ ([⟨none, some "plan", some 5, some 10, some true, none,
        none⟩] : List RawRec), r.workflow_id = none ∨ r.phase_name = none ∨
        r.tokens_attributed = none) ∧
    ((rawMain [⟨none, some "plan", some 5, some 10, some true, none,
        none⟩]).1 = [] ∧
      ∃ s, (rawMain [⟨none, some "plan", some 5, some 10, some true, none,
        none⟩]).2 = some (Err.keyError s)) :=
  ⟨⟨_, List.mem_singleton_self _, Or.inl rfl⟩,
    c4_missing_core_field_fails_before_output _
      ⟨_, List.mem_singleton_self _, Or.inl rfl⟩⟩

/-!
Permutation invariance toolkit: grouping keys of permuted batches are
permutations of each other, and pair-wise operations over groups can be
rewritten to operations over keys.
-/

theorem filterMap_pairs_keys {β : Type} :
    ∀ (m : List (String × List Phase)) (f : String × List Phase → Option β)
      (F : String → Option β), (∀ g ∈ m, f g = F g.1) →
      m.filterMap f = (m.map Prod.fst).filterMap F
  | [], _, _, _ => rfl
  | g :: m, f, F, hf => by
      have hh := hf g (List.mem_cons_self g m)
      have ht := filterMap_pairs_keys m f F
        fun g' hg' => hf g' (List.mem_cons_of_mem g hg')
      simp only [List.filterMap_cons, List.map_cons, hh, ht]

theorem map_pairs_keys {β : Type} :
    ∀ (m : List (String × List Phase)) (f : String × List Phase → β)
      (F : String → β), (∀ g ∈ m, f g = F g.1) →
      m.map f = (m.map Prod.fst).map F
  | [], _, _, _ => rfl
  | g :: m, f, F, hf => by
      have hh := hf g (List.mem_cons_self g m)
      have ht := map_pairs_keys m f F
        fun g' hg' => hf g' (List.mem_cons_of_mem g hg')
      simp only [List.map_cons, hh, ht]

theorem groupBy_keys_perm {α : Type} (key : α → String) (d1 d2 : List α)
    (h : d1.Perm d2) :
    ((groupBy key d1).map Prod.fst).Perm ((groupBy key d2).map Prod.fst) := by
  refine (List.perm_ext_iff_of_nodup (groupBy_keys_nodup key d1)
    (groupBy_keys_nodup key d2)).mpr ?_
  intro k
  rw [groupBy_keys_mem, groupBy_keys_mem]
  constructor <;> rintro ⟨p, hp, he⟩
  · exact ⟨p, h.subset hp, he⟩
  · exact ⟨p, h.symm.subset hp, he⟩

theorem workflows_all_zero_keys (d : List Phase) :
    workflows_all_zero d = ((by_workflow d).map Prod.fst).filterMap fun k =>
      if zeroCount (d.filter fun p => decide (p.workflow_id = k)) =
          (d.filter fun p => decide (p.workflow_id = k)).length then some k
      else none := by
  refine filterMap_pairs_keys _ _ _ ?_
  intro g hg
  rw [groupBy_groups (fun p : Phase => p.workflow_id) d g hg]

theorem workflows_all_nonzero_keys (d : List Phase) :
    workflows_all_nonzero d = ((by_workflow d).map Prod.fst).filterMap fun k =>
      if zeroCount (d.filter fun p => decide (p.workflow_id = k)) =
          (d.filter fun p => decide (p.workflow_id = k)).length then none
      else if zeroCount (d.filter fun p => decide (p.workflow_id = k)) = 0
        then some k else none := by
  refine filterMap_pairs_keys _ _ _ ?_
  intro g hg
  rw [groupBy_groups (fun p : Phase => p.workflow_id) d g hg]

theorem workflows_mixed_keys (d : List Phase) :
    workflows_mixed d = ((by_workflow d).map Prod.fst).filterMap fun k =>
      if zeroCount (d.filter fun p => decide (p.workflow_id = k)) =
          (d.filter fun p => decide (p.workflow_id = k)).length then none
      else if zeroCount (d.filter fun p => decide (p.workflow_id = k)) = 0
        then none
      else some (k, zeroCount (d.filter fun p => decide (p.workflow_id = k)),
        (d.filter fun p => decide (p.workflow_id = k)).length) := by
  refine filterMap_pairs_keys _ _ _ ?_
  intro g hg
  rw [groupBy_groups (fun p : Phase => p.workflow_id) d g hg]

theorem phase_stats_keys (d : List Phase) :
    phase_stats d = ((by_phase_name d).map Prod.fst).map fun k =>
      statEntry k (d.filter fun p => decide (p.phase_name = k)) := by
  rw [phase_stats]
  refine map_pairs_keys _ _ _ ?_
  intro g hg
  rw [groupBy_groups (fun p : Phase => p.phase_name) d g hg]

/-- The property C6 asserts of a pair of permuted batches: identical
aggregate counts, sorted outputs that are permutations of each other,
and identical rendered sorted outputs whenever the sort keys are
pairwise distinct. -/
def c6Concl (d1 d2 : List Phase) : Prop :=
  d1.length = d2.length ∧
  (zero_token_phases d1).length = (zero_token_phases d2).length ∧
  (nonzero_token_phases d1).length = (nonzero_token_phases d2).length ∧
  (zero_archived d1).length = (zero_archived d2).length ∧
  (zero_live d1).length = (zero_live d2).length ∧
  (∀ k : String,
    (d1.filter fun p => decide (p.workflow_id = k)).length =
      (d2.filter fun p => decide (p.workflow_id = k)).length ∧
    (d1.filter fun p => decide (p.phase_name = k)).length =
      (d2.filter fun p => decide (p.phase_name = k)).length ∧
    zeroCount (d1.filter fun p => decide (p.phase_name = k)) =
      zeroCount (d2.filter fun p => decide (p.phase_name = k))) ∧
  (workflows_all_zero d1).length = (workflows_all_zero d2).length ∧
  (workflows_all_nonzero d1).length = (workflows_all_nonzero d2).length ∧
  (workflows_mixed d1).length = (workflows_mixed d2).length ∧
  (suspicious_sorted d1).Perm (suspicious_sorted d2) ∧
  (phase_stats_sorted d1).Perm (phase_stats_sorted d2) ∧
  ((suspicious_phases d1).Pairwise
      (fun a b => a.duration_seconds ≠ b.duration_seconds) →
    ((suspicious_sorted d1).take 10).map mkSus =
      ((suspicious_sorted d2).take 10).map mkSus) ∧
  ((phase_stats d1).Pairwise (fun a b => statRate a ≠ statRate b) →
    (phase_stats_sorted d1).map mkStat = (phase_stats_sorted d2).map mkStat)

/-- C6 amended: batches that are permutations of each other have
identical aggregate counts (totals, zero/nonzero, archived/live,
per-phase-name totals and zero counts, workflow class counts); their
sorted outputs are permutations of each other; and the rendered sorted
outputs are identical whenever the relevant sort keys are pairwise
distinct (no duration ties among suspicious phases, no zero-rate ties
among phase names). -/
theorem c6_permutation_invariance (d1 d2 : List Phase) (h : d1.Perm d2) :
    c6Concl d1 d2 := by
  have hktotW : ∀ k : String,
      (d1.filter fun p => decide (p.workflow_id = k)).length =
        (d2.filter fun p => decide (p.workflow_id = k)).length :=
    fun k => (h.filter _).length_eq
  have hkzcW : ∀ k : String,
      zeroCount (d1.filter fun p => decide (p.workflow_id = k)) =
        zeroCount (d2.filter fun p => decide (p.workflow_id = k)) :=
    fun k => ((h.filter _).filter _).length_eq
  have hktotP : ∀ k : String,
      (d1.filter fun p => decide (p.phase_name = k)).length =
        (d2.filter fun p => decide (p.phase_name = k)).length :=
    fun k => (h.filter _).length_eq
  have hkzcP : ∀ k : String,
      zeroCount (d1.filter fun p => decide (p.phase_name = k)) =
        zeroCount (d2.filter fun p => decide (p.phase_name = k)) :=
    fun k => ((h.filter _).filter _).length_eq
  have hkeysW := groupBy_keys_perm (fun p : Phase => p.workflow_id) d1 d2 h
  have hkeysP := groupBy_keys_perm (fun p : Phase => p.phase_name) d1 d2 h
  have hsusp : (suspicious_phases d1).Perm (suspicious_phases d2) :=
    (h.filter _).filter _
  have hss : (suspicious_sorted d1).Perm (suspicious_sorted d2) :=
    (pySortDesc_perm _ _).trans (hsusp.trans (pySortDesc_perm _ _).symm)
  have hstats : (phase_stats d1).Perm (phase_stats d2) := by
    rw [phase_stats_keys d1, phase_stats_keys d2]
    have hEE : (fun k => statEntry k
          (d1.filter fun p => decide (p.phase_name = k)))
        = fun k => statEntry k (d2.filter fun p => decide (p.phase_name = k)) := by
      funext k
      simp only [statEntry]
      rw [hkzcP k, hktotP k]
    rw [hEE]
    exact hkeysP.map _
  have hpss : (phase_stats_sorted d1).Perm (phase_stats_sorted d2) :=
    (pySortDesc_perm _ _).trans (hstats.trans (pySortDesc_perm _ _).symm)
  have hWZ : (workflows_all_zero d1).length = (workflows_all_zero d2).length := by
    rw [workflows_all_zero_keys d1, workflows_all_zero_keys d2]
    have hFF : (fun k =>
          if zeroCount (d1.filter fun p => decide (p.workflow_id = k)) =
              (d1.filter fun p => decide (p.workflow_id = k)).length
          then some k else none)
        = fun k =>
          if zeroCount (d2.filter fun p => decide (p.workflow_id = k)) =
              (d2.filter fun p => decide (p.workflow_id = k)).length
          then some k else none := by
      funext k
      rw [hkzcW k, hktotW k]
    rw [hFF]
    exact (hkeysW.filterMap _).length_eq
  have hWN : (workflows_all_nonzero d1).length
      = (workflows_all_nonzero d2).length := by
    rw [workflows_all_nonzero_keys d1, workflows_all_nonzero_keys d2]
    have hFF : (fun k =>
          if zeroCount (d1.filter fun p => decide (p.workflow_id = k)) =
              (d1.filter fun p => decide (p.workflow_id = k)).length then none
          else if zeroCount (d1.filter fun p => decide (p.workflow_id = k)) = 0
            then some k else none)
        = fun k =>
          if zeroCount (d2.filter fun p => decide (p.workflow_id = k)) =
              (d2.filter fun p => decide (p.workflow_id = k)).length then none
          else if zeroCount (d2.filter fun p => decide (p.workflow_id = k)) = 0
            then some k else none := by
      funext k
      rw [hkzcW k, hktotW k]
    rw [hFF]
    exact (hkeysW.filterMap _).length_eq
  have hWM : (workflows_mixed d1).length = (workflows_mixed d2).length := by
    rw [workflows_mixed_keys d1, workflows_mixed_keys d2]
    have hFF : (fun k =>
          if zeroCount (d1.filter fun p => decide (p.workflow_id = k)) =
              (d1.filter fun p => decide (p.workflow_id = k)).length then none
          else if zeroCount (d1.filter fun p => decide (p.workflow_id = k)) = 0
            then none
          else some (k, zeroCount (d1.filter fun p => decide (p.workflow_id = k)),
            (d1.filter fun p => decide (p.workflow_id = k)).length))
        = fun k =>
          if zeroCount (d2.filter fun p => decide (p.workflow_id = k)) =
              (d2.filter fun p => decide (p.workflow_id = k)).length then none
          else if zeroCount (d2.filter fun p => decide (p.workflow_id = k)) = 0
            then none
          else some (k, zeroCount (d2.filter fun p => decide (p.workflow_id = k)),
            (d2.filter fun p => decide (p.workflow_id = k)).length) := by
      funext k
      rw [hkzcW k, hktotW k]
    rw [hFF]
    exact (hkeysW.filterMap _).length_eq
  refine ⟨h.length_eq, (h.filter _).length_eq, (h.filter _).length_eq,
    (h.filter _).length_eq, (h.filter _).length_eq,
    fun k => ⟨hktotW k, hktotP k, hkzcP k⟩, hWZ, hWN, hWM, hss, hpss, ?_, ?_⟩
  · intro hdist
    have hsymm : Symmetric
        (fun a b : Phase => a.duration_seconds ≠ b.duration_seconds) :=
      fun _ _ hab he => hab he.symm
    have hd1 : (suspicious_sorted d1).Pairwise
        (fun a b : Phase => a.duration_seconds ≠ b.duration_seconds) :=
      ((pySortDesc_perm _ (suspicious_phases d1)).pairwise_iff @hsymm).mpr hdist
    have heq := sorted_perm_distinct_eq (fun p : Phase => p.duration_seconds)
      (suspicious_sorted d1) (suspicious_sorted d2) hss
      (pySortDesc_sorted _ _) (pySortDesc_sorted _ _) hd1
    rw [heq]
  · intro hdist
    have hsymm : Symmetric
        (fun a b : String × Nat × Nat × ℚ => statRate a ≠ statRate b) :=
      fun _ _ hab he => hab he.symm
    have hd1 : (phase_stats_sorted d1).Pairwise
        (fun a b => statRate a ≠ statRate b) :=
      ((pySortDesc_perm _ (phase_stats d1)).pairwise_iff @hsymm).mpr hdist
    have heq := sorted_perm_distinct_eq statRate
      (phase_stats_sorted d1) (phase_stats_sorted d2) hpss
      (pySortDesc_sorted _ _) (pySortDesc_sorted _ _) hd1
    rw [heq]

/-- C6 counterexample: two suspicious phases with equal durations.
Swapping them permutes the batch but changes the rendered suspicious
list, because the stable sort breaks the duration tie by batch order. -/
theorem c6_counterexample :
    ([⟨"a", "x", 0, 400, true, none, none⟩,
      ⟨"b", "y", 0, 400, true, none, none⟩] : List Phase).Perm
      [⟨"b", "y", 0, 400, true, none, none⟩,
        ⟨"a", "x", 0, 400, true, none, none⟩] ∧
    ((suspicious_sorted [⟨"a", "x", 0, 400, true, none, none⟩,
        ⟨"b", "y", 0, 400, true, none, none⟩]).take 10).map mkSus ≠
      ((suspicious_sorted [⟨"b", "y", 0, 400, true, none, none⟩,
        ⟨"a", "x", 0, 400, true, none, none⟩]).take 10).map mkSus := by
  constructor
  · exact List.Perm.swap _ _ _
  · intro he
    have ha := congrArg (fun l => l.head? ) he
    simp [suspicious_sorted, suspicious_phases, zero_token_phases,
      pySortDesc, List.insertionSort, List.orderedInsert, mkSus] at ha

/-- C6 witness: the permutation-invariance property at a concrete pair
of permuted batches. -/
theorem c6_witness :
    ([⟨"w1", "x", 0, 400, true, none, none⟩,
      ⟨"w2", "y", 5, 100, false, none, none⟩] : List Phase).Perm
      [⟨"w2", "y", 5, 100, false, none, none⟩,
        ⟨"w1", "x", 0, 400, true, none, none⟩] ∧
    c6Concl [⟨"w1", "x", 0, 400, true, none, none⟩,
        ⟨"w2", "y", 5, 100, false, none, none⟩]
      [⟨"w2", "y", 5, 100, false, none, none⟩,
        ⟨"w1", "x", 0, 400, true, none, none⟩] :=
  ⟨List.Perm.swap _ _ _,
    c6_permutation_invariance _ _ (List.Perm.swap _ _ _)⟩
